import Mathlib

set_option maxHeartbeats 1000000

/-! Shallow embedding of the clinicalq_backend acquisition engine:
    bands.py (spectral feature extraction), protocol.py (epoch catalogs),
    openbci.py (epoch buffer finalization of BrainFlowBoard.read_epoch) and
    runner.py (channel resolution and validation, _wait_for_ready, the
    _capture_epoch buffer finalization and the run_session control flow). -/

namespace ClinicalQ

/-- ASCII lowercase of a string, modelling the Python str.lower method on the
    ASCII tokens this code compares. -/
def pyLower (s : String) : String := String.mk (s.data.map Char.toLower)

/-- Whitespace strip, modelling the Python str.strip method: leading and
    trailing whitespace characters are removed. -/
def pyStrip (s : String) : String :=
  String.mk (((s.data.dropWhile Char.isWhitespace).reverse.dropWhile Char.isWhitespace).reverse)

/-! ## Channel map resolution and validation (runner.py lines 18-52) -/

/-- DEFAULT_CHANNELS of runner.py, as an association list in source order. -/
def DEFAULT_CHANNELS : List (String × Int) :=
  [("Cz", 1), ("O1", 2), ("Fz", 3), ("F3", 4), ("F4", 5)]

/-- REQUIRED_LOCATIONS of runner.py. -/
def REQUIRED_LOCATIONS : List String := ["O1", "Cz", "Fz", "F3", "F4"]

/-- Lookup in an association list, modelling a Python dict get. -/
def lookupStr : List (String × Int) → String → Option Int
  | [], _ => none
  | (k, v) :: rest, q => if k = q then some v else lookupStr rest q

/-- Update one key of an association list, modelling a Python dict update for
    a single key: an existing key keeps its position, a new key is appended. -/
def updateAssoc : List (String × Int) → String → Int → List (String × Int)
  | [], k, v => [(k, v)]
  | (k0, v0) :: rest, k, v =>
    if k0 = k then (k0, v) :: rest else (k0, v0) :: updateAssoc rest k v

/-- Models _resolve_channels: the built-in defaults updated in order by the
    channels entries of the config. -/
def resolve_channels (overrides : List (String × Int)) : List (String × Int) :=
  overrides.foldl (fun m kv => updateAssoc m kv.1 kv.2) DEFAULT_CHANNELS

/-- Error taxonomy of the spec; the source raises RuntimeError at each of the
    corresponding call sites. -/
inductive Err
  | configurationError
  | unsupportedModeError
  | unsupportedLocationError
  | hardwareUnavailableError
  | captureFailure
deriving DecidableEq, Repr

/-- Models the seen-dict duplicate scan of _validate_required_channels: true
    exactly when some channel index repeats. -/
def dupFound : List Int → List Int → Bool
  | _, [] => false
  | seen, c :: rest => if c ∈ seen then true else dupFound (c :: seen) rest

/-- Models _validate_required_channels: missing locations first, then
    non-positive indices, then duplicate indices; none means no error raised. -/
def validate_required_channels (channels : List (String × Int)) : Option Err :=
  if REQUIRED_LOCATIONS.filter (fun loc => (lookupStr channels loc).isNone) ≠ [] then
    some Err.configurationError
  else if REQUIRED_LOCATIONS.filter (fun loc => (lookupStr channels loc).getD 0 ≤ 0) ≠ [] then
    some Err.configurationError
  else if dupFound [] (REQUIRED_LOCATIONS.map (fun loc => (lookupStr channels loc).getD 0)) then
    some Err.configurationError
  else none

/-! ## Protocol catalog (protocol.py) -/

structure EpochSpec where
  index : ℕ
  label : String
  instruction : String
  seconds : ℕ
deriving DecidableEq, Repr

def EO_INSTRUCTION : String :=
  "Eyes OPEN. Fixate on a point. Stay still, jaw relaxed, minimize blinking. Next epoch begins automatically."

def EC_INSTRUCTION : String :=
  "Eyes CLOSED. Stay still, jaw relaxed, minimize swallowing/blinking. Next epoch begins automatically."

def READ_INSTRUCTION : String :=
  "READ silently (no lip movement). Stay still. Next epoch begins automatically."

def COUNT_INSTRUCTION : String :=
  "COUNT silently (serial counting). Stay still. Next epoch begins automatically."

def OMNI_INSTRUCTION : String :=
  "Apply OR/Omni/UCS sound as configured. Stay still. Next epoch begins automatically."

def TEST_INSTRUCTION : String :=
  "TEST immediate UCS effect. Stay still. Next epoch begins automatically."

def HARMONIC_INSTRUCTION : String :=
  "Harmonic/UCS therapeutic test. Stay still. Next epoch begins automatically."

def CZ_SEQUENCE : List EpochSpec :=
  [⟨1, "EO", EO_INSTRUCTION, 15⟩,
   ⟨2, "EO", EO_INSTRUCTION, 15⟩,
   ⟨3, "EC", EC_INSTRUCTION, 15⟩,
   ⟨4, "EO", EO_INSTRUCTION, 15⟩,
   ⟨5, "READ", READ_INSTRUCTION, 15⟩,
   ⟨6, "OMNI", OMNI_INSTRUCTION, 15⟩,
   ⟨7, "COUNT", COUNT_INSTRUCTION, 15⟩,
   ⟨8, "EO", EO_INSTRUCTION, 15⟩,
   ⟨9, "TEST", TEST_INSTRUCTION, 15⟩,
   ⟨10, "HARMONIC", HARMONIC_INSTRUCTION, 15⟩]

def O1_SEQUENCE : List EpochSpec :=
  [⟨1, "EO", EO_INSTRUCTION, 15⟩,
   ⟨2, "EO", EO_INSTRUCTION, 15⟩,
   ⟨3, "EC", EC_INSTRUCTION, 15⟩,
   ⟨4, "EO", EO_INSTRUCTION, 15⟩]

def EC_SINGLE_SEQUENCE : List EpochSpec := [⟨1, "EC", EC_INSTRUCTION, 15⟩]

def SIMULTANEOUS_EXTRA : List EpochSpec :=
  [⟨11, "FRONTAL_EC",
    "Eyes CLOSED baseline for frontal channels. Stay still. Next epoch begins automatically.", 15⟩]

def SEQUENTIAL_ORDER : List String := ["O1", "Cz", "Fz", "F3", "F4"]

/-- Models _apply_epoch_seconds: rebuild every spec with the configured epoch
    duration. -/
def apply_epoch_seconds (sequence : List EpochSpec) (epochSeconds : ℕ) : List EpochSpec :=
  sequence.map (fun spec => ⟨spec.index, spec.label, spec.instruction, epochSeconds⟩)

/-- Models _resolve_sequence of runner.py; none models the ValueError branch. -/
def resolve_sequence (location : String) : Option (List EpochSpec) :=
  if location = "Cz" then some CZ_SEQUENCE
  else if location = "O1" then some O1_SEQUENCE
  else if location = "Fz" ∨ location = "F3" ∨ location = "F4" then some EC_SINGLE_SEQUENCE
  else none

/-! ## Readiness input (_wait_for_ready, runner.py lines 203-231) -/

/-- Models one stdin line read by _wait_for_ready. The json.loads call of the
    source is abstracted by constructor: a line that parses as a JSON object is
    jsonCmd carrying its command field and optional next_location field, any
    other valid JSON line is jsonOther, and a line that is not valid JSON is
    text (none of the bare ready tokens is valid JSON). End of input is the end
    of the list, modelling readline returning the empty string. -/
inductive Line
  | text (s : String)
  | jsonCmd (command : String) (nextLocation : Option String)
  | jsonOther
deriving DecidableEq, Repr

/-- Observable actions of a session: the two board calls and emitted events,
    identified by their event name. -/
inductive Action
  | start
  | stop
  | ev (name : String)
deriving DecidableEq, Repr

/-- Tokens accepted by _wait_for_ready after strip and lower. -/
def READY_TOKENS : List String := ["ready", "r", "ok", "next"]

/-- Loop body of _wait_for_ready: returns the events it emits, the unread
    lines, and true when it resumed on a recognized readiness signal (false
    when it resumed on end of input). -/
def waitLoop (nextLocation : String) : List Line → List Action × List Line × Bool
  | [] => ([Action.ev "reposition_input_eof"], [], false)
  | line :: rest =>
    match line with
    | Line.text s =>
      let t := pyStrip s
      if t = "" then waitLoop nextLocation rest
      else if pyLower t ∈ READY_TOKENS then ([], rest, true)
      else waitLoop nextLocation rest
    | Line.jsonCmd c requested =>
      if c = "ready" ∧ (requested = none ∨ requested = some "" ∨ requested = some nextLocation)
      then ([], rest, true)
      else waitLoop nextLocation rest
    | Line.jsonOther => waitLoop nextLocation rest

/-- Models _wait_for_ready: emits reposition_waiting, then loops over input. -/
def wait_for_ready (lines : List Line) (nextLocation : String) :
    List Action × List Line × Bool :=
  let r := waitLoop nextLocation lines
  (Action.ev "reposition_waiting" :: r.1, r.2.1, r.2.2)

/-- Models the manual branch of the repositioning phase in run_session
    (runner.py lines 294-304): reposition_start, the wait, and then
    reposition_complete emitted unconditionally after the wait returns. -/
def manualRepositionPhase (lines : List Line) (nextLocation : String) :
    List Action × List Line :=
  let w := wait_for_ready lines nextLocation
  ([Action.ev "reposition_start"] ++ w.1 ++ [Action.ev "reposition_complete"], w.2.1)

/-! ## Session orchestration (run_session, runner.py lines 234-366) -/

/-- Session-level capture record, the protocol-visible shape of EpochCapture. -/
structure EpochCap where
  sequence : String
  index : ℕ
  label : String
  seconds : ℕ
deriving DecidableEq, Repr

/-- Fault injection for the board: start raising, or the capture of the n-th
    epoch of the session raising an exception. -/
structure Fault where
  startFails : Bool
  captureFailsAt : Option ℕ
deriving DecidableEq, Repr

def noFault : Fault := ⟨false, none⟩

/-- Session-level abstraction of _capture_epoch: the epoch_start and
    epoch_complete events and the returned capture record. The per-channel
    data path inside the epoch is embedded separately below. -/
def capture_epoch (sequenceName : String) (spec : EpochSpec) (ctr : ℕ) (f : Fault) :
    List Action × Except Err EpochCap :=
  if f.captureFailsAt = some ctr then
    ([Action.ev "epoch_start"], Except.error Err.captureFailure)
  else
    ([Action.ev "epoch_start", Action.ev "epoch_complete"],
     Except.ok ⟨sequenceName, spec.index, spec.label, spec.seconds⟩)

/-- Capture loop over one sequence of epoch specs, threading the session-wide
    epoch counter; an exception aborts the loop and propagates. -/
def captureSeq (sequenceName : String) (f : Fault) :
    List EpochSpec → ℕ → List Action × ℕ × Except Err (List EpochCap)
  | [], ctr => ([], ctr, Except.ok [])
  | spec :: rest, ctr =>
    match capture_epoch sequenceName spec ctr f with
    | (acts, Except.error e) => (acts, ctr + 1, Except.error e)
    | (acts, Except.ok cap) =>
      match captureSeq sequenceName f rest (ctr + 1) with
      | (acts2, ctr2, Except.error e) => (acts ++ acts2, ctr2, Except.error e)
      | (acts2, ctr2, Except.ok caps) => (acts ++ acts2, ctr2, Except.ok (cap :: caps))

/-- Configuration values as run_session reads them from the config dict, after
    the defaulting performed by the config.get calls. -/
structure Config where
  mode : String
  epochSeconds : ℕ
  repositionSeconds : ℕ
  fastMode : Bool
  repositionMode : String
  liveBandpower : Bool
  includeFrontalBaseline : Bool
  channels : List (String × Int)
  sequentialOrder : Option (List String)
deriving DecidableEq, Repr

/-- Models the Python truthiness fallback: an absent sequential_order key or an
    empty list both fall back to SEQUENTIAL_ORDER. -/
def orderFromConfig : Option (List String) → List String
  | none => SEQUENTIAL_ORDER
  | some [] => SEQUENTIAL_ORDER
  | some (l :: rest) => l :: rest

/-- Mutual set inclusion of two string lists, modelling set equality of the
    Python set comparison. -/
def listSetEq (a b : List String) : Bool :=
  a.all (fun x => b.contains x) && b.all (fun x => a.contains x)

/-- Models the sequential-order permutation check of run_session. -/
def sequential_order_valid (order : List String) : Bool :=
  (order.length == REQUIRED_LOCATIONS.length) && listSetEq order REQUIRED_LOCATIONS

def repositionModeValid (rm : String) : Bool := rm == "timer" || rm == "manual"

/-- Sequential-mode site loop of run_session: per site, resolve the catalog
    sequence, run the repositioning phase for every site after the first, then
    capture the sequence; stdin lines are threaded through the manual waits. -/
def sequentialLoop (cfg : Config) (f : Fault) :
    List String → Bool → List Line → ℕ → List Action × Except Err (List EpochCap)
  | [], _, _, _ => ([], Except.ok [])
  | loc :: rest, isFirst, lines, ctr =>
    match resolve_sequence loc with
    | none => ([], Except.error Err.unsupportedLocationError)
    | some baseSeq =>
      let specs := apply_epoch_seconds baseSeq cfg.epochSeconds
      let rep : List Action × List Line :=
        if isFirst then ([], lines)
        else if pyLower cfg.repositionMode = "manual" then manualRepositionPhase lines loc
        else
          let secs := if cfg.fastMode then 0 else cfg.repositionSeconds
          ([Action.ev "reposition_start"] ++ List.replicate secs (Action.ev "reposition_tick") ++
             [Action.ev "reposition_complete"], lines)
      match captureSeq loc f specs ctr with
      | (acts, _, Except.error e) =>
        (rep.1 ++ [Action.ev "sequence_start"] ++ acts, Except.error e)
      | (acts, ctr2, Except.ok caps) =>
        match sequentialLoop cfg f rest false rep.2 ctr2 with
        | (acts2, Except.error e) =>
          (rep.1 ++ [Action.ev "sequence_start"] ++ acts ++ [Action.ev "sequence_complete"] ++ acts2,
           Except.error e)
        | (acts2, Except.ok caps2) =>
          (rep.1 ++ [Action.ev "sequence_start"] ++ acts ++ [Action.ev "sequence_complete"] ++ acts2,
           Except.ok (caps ++ caps2))

/-- Body of the try block of run_session: board start, then the mode dispatch.
    The sequential-order check and the unknown-mode branch sit inside this
    body, after the start call, exactly as in the source. -/
def runBody (cfg : Config) (stdin : List Line) (f : Fault) :
    List Action × Except Err (List EpochCap) :=
  if f.startFails then ([Action.start], Except.error Err.hardwareUnavailableError)
  else
    let pre := [Action.start, Action.ev "board_ready"]
    if pyLower cfg.mode = "simultaneous" then
      let sequence := apply_epoch_seconds CZ_SEQUENCE cfg.epochSeconds ++
        (if cfg.includeFrontalBaseline then apply_epoch_seconds SIMULTANEOUS_EXTRA cfg.epochSeconds
         else [])
      match captureSeq "MASTER" f sequence 0 with
      | (acts, _, Except.error e) => (pre ++ [Action.ev "sequence_start"] ++ acts, Except.error e)
      | (acts, _, Except.ok caps) =>
        (pre ++ [Action.ev "sequence_start"] ++ acts ++ [Action.ev "sequence_complete"],
         Except.ok caps)
    else if pyLower cfg.mode = "sequential" then
      let order := orderFromConfig cfg.sequentialOrder
      if sequential_order_valid order = false then (pre, Except.error Err.configurationError)
      else
        let r := sequentialLoop cfg f order true stdin 0
        (pre ++ r.1, r.2)
    else (pre, Except.error Err.unsupportedModeError)

/-- Models run_session: eager channel and reposition-policy validation before
    any board interaction, then the try body, then the finally block that stops
    the board and emits board_stopped before the result (or the exception)
    propagates; on success the analysis summary event follows. -/
def run_session (cfg : Config) (stdin : List Line) (f : Fault) :
    List Action × Except Err (List EpochCap) :=
  match validate_required_channels (resolve_channels cfg.channels) with
  | some e => ([], Except.error e)
  | none =>
    if repositionModeValid (pyLower cfg.repositionMode) = false then
      ([], Except.error Err.unsupportedModeError)
    else
      (Action.ev "session_start" :: (runBody cfg stdin f).1 ++
         [Action.stop, Action.ev "board_stopped"] ++
         (match (runBody cfg stdin f).2 with
          | Except.ok _ => [Action.ev "analysis_complete"]
          | Except.error _ => []),
       (runBody cfg stdin f).2)

deriving instance DecidableEq for Except

/-- Config with a sequential site order missing F4, so not a permutation of
    the required sites, and defaults everywhere else. -/
def cfgBadOrder : Config :=
  ⟨"sequential", 15, 20, true, "timer", true, true, [], some ["Cz", "O1", "Fz", "F3"]⟩

/-- Simultaneous-mode config with default channels. -/
def cfgSimultaneous : Config :=
  ⟨"simultaneous", 15, 20, true, "timer", true, true, [], none⟩

/-- Sequential-mode config with the manual repositioning policy. -/
def cfgManualPolicy : Config :=
  ⟨"sequential", 15, 20, true, "manual", true, true, [], none⟩

/-- Config whose channel map sends Cz and O1 to the same index 1. -/
def cfgDupChannels : Config :=
  ⟨"sequential", 15, 20, true, "timer", true, true,
   [("Cz", 1), ("O1", 1), ("Fz", 3), ("F3", 4), ("F4", 5)], none⟩

/-- Config whose channel map sends Cz to the non-positive index 0. -/
def cfgNonPositiveChannel : Config :=
  ⟨"sequential", 15, 20, true, "timer", true, true, [("Cz", 0)], none⟩

/-- Fault that raises an exception at the fourth epoch of the capture loop. -/
def faultAtThree : Fault := ⟨false, some 3⟩

/-! ## Epoch buffer finalization
    Streaming path: runner.py _capture_epoch lines 151-163.
    Block path: openbci.py BrainFlowBoard.read_epoch lines 219-233. -/

/-- Models the Python negative-index slice sig[-n:], which is the whole list
    when n is 0 and the last n elements otherwise. -/
def pySliceLastN (sig : List ℝ) (n : ℕ) : List ℝ :=
  if n = 0 then sig else sig.drop (sig.length - n)

/-- Streaming-path finalization of _capture_epoch: truncate an over-long
    buffer from the front, edge-pad a short non-empty buffer at the end with
    its last value, and replace an empty buffer by zeros. -/
def finalizeStreamBuffer (sig : List ℝ) (target : ℕ) : List ℝ :=
  if target ≤ sig.length then sig.take target
  else if 0 < sig.length then sig ++ List.replicate (target - sig.length) (sig.getLastD 0)
  else List.replicate target 0

/-- Per-channel assembly of the streaming path: the chunks appended over the
    epoch are concatenated and then finalized to the target sample count. -/
def assembleStreamChannel (chunks : List (List ℝ)) (target : ℕ) : List ℝ :=
  finalizeStreamBuffer chunks.flatten target

/-- Block-path finalization of BrainFlowBoard.read_epoch: keep the last n
    samples of an over-long buffer, edge-pad a short non-empty buffer at the
    front with its first value, and replace an empty buffer by zeros. -/
def readEpochFinalize (sig : List ℝ) (n : ℕ) : List ℝ :=
  if n ≤ sig.length then pySliceLastN sig n
  else if 0 < sig.length then List.replicate (n - sig.length) (sig.headD 0) ++ sig
  else List.replicate n 0

/-! ## Spectral feature extraction (bands.py)
    Samples are modelled as real numbers, frequencies and band edges as exact
    rationals; the amplitude values of the discrete spectrum live in ℝ. -/

/-- BANDS of bands.py, in source order, with exact rational edges. -/
def BANDS : List (String × ℚ × ℚ) :=
  [("delta", 3/2, 5/2),
   ("theta", 3, 7),
   ("alpha", 8, 12),
   ("lo_alpha", 8, 9),
   ("hi_alpha", 11, 12),
   ("smr", 12, 15),
   ("beta", 16, 25),
   ("hibeta", 28, 40)]

/-- Models _safe_signal: a buffer with fewer than 4 samples becomes four zeros.
    The nan_to_num branch of the source has no counterpart because ℝ has no
    non-finite values. -/
def safeSignal (x : List ℝ) : List ℝ :=
  if x.length < 4 then List.replicate 4 0 else x

/-- Hann window coefficient j of np.hanning over n points; _safe_signal
    guarantees n is at least 4 wherever this is applied. -/
noncomputable def hanning (n : ℕ) (j : ℕ) : ℝ :=
  1 / 2 - 1 / 2 * Real.cos (2 * Real.pi * j / ((n : ℝ) - 1))

/-- Arithmetic mean of the buffer, as subtracted by _amplitude_spectrum. -/
noncomputable def signalMean (x : List ℝ) : ℝ := x.sum / x.length

/-- Mean-removed, Hann-windowed sample j of the sanitized buffer. -/
noncomputable def windowedSample (x : List ℝ) (j : ℕ) : ℝ :=
  (x.getD j 0 - signalMean x) * hanning x.length j

/-- Discrete Fourier coefficient k of the windowed buffer (np.fft.rfft). -/
noncomputable def rfftCoeff (x : List ℝ) (k : ℕ) : ℂ :=
  ∑ j ∈ Finset.range x.length,
    (windowedSample x j : ℂ) *
      Complex.exp (-2 * Real.pi * Complex.I * (j : ℂ) * (k : ℂ) / (x.length : ℂ))

/-- Sum of the Hann window coefficients, the denominator of the 2/sum(window)
    amplitude scale. -/
noncomputable def windowSum (n : ℕ) : ℝ := ∑ j ∈ Finset.range n, hanning n j

/-- Amplitude-spectrum bin k: the magnitude of the Fourier coefficient scaled
    by 2/sum(window), as computed by _amplitude_spectrum. -/
noncomputable def ampBin (x : List ℝ) (k : ℕ) : ℝ :=
  Complex.abs (rfftCoeff x k) * (2 / windowSum x.length)

/-- Number of bins of the one-sided spectrum of an n-point buffer. -/
def nBins (n : ℕ) : ℕ := n / 2 + 1

/-- Frequency of bin k of np.fft.rfftfreq over an n-point buffer. -/
def rfreq (n : ℕ) (rate : ℚ) (k : ℕ) : ℚ := (k : ℚ) * rate / (n : ℚ)

/-- Bins of the one-sided spectrum whose frequency lies in the closed band
    range, in ascending order; the boolean mask of band_amplitude. -/
def bandMask (n : ℕ) (rate lo hi : ℚ) : List ℕ :=
  (List.range (nBins n)).filter (fun k => lo ≤ rfreq n rate k ∧ rfreq n rate k ≤ hi)

/-- Models band_amplitude: the square root of the sum of the squared
    amplitude-spectrum bins inside the closed band, and 0 when the mask is
    empty. -/
noncomputable def band_amplitude (x : List ℝ) (rate lo hi : ℚ) : ℝ :=
  if bandMask (safeSignal x).length rate lo hi = [] then 0
  else Real.sqrt (((bandMask (safeSignal x).length rate lo hi).map
    (fun k => ampBin (safeSignal x) k ^ 2)).sum)

/-- First index of the maximum, modelling np.argmax on a non-empty buffer;
    strict improvement keeps the earliest maximal entry. -/
noncomputable def pyArgmaxAux : List ℝ → ℕ → ℕ → ℝ → ℕ
  | [], _, best, _ => best
  | a :: rest, i, best, bv =>
    if bv < a then pyArgmaxAux rest (i + 1) i a
    else pyArgmaxAux rest (i + 1) best bv

noncomputable def pyArgmax : List ℝ → ℕ
  | [] => 0
  | a :: rest => pyArgmaxAux rest 1 0 a

/-- Models peak_alpha_frequency: the frequency of the largest amplitude bin of
    the closed alpha band, and 0 when the band holds no bin. -/
noncomputable def peak_alpha_frequency (x : List ℝ) (rate : ℚ) : ℚ :=
  if bandMask (safeSignal x).length rate 8 12 = [] then 0
  else
    ((bandMask (safeSignal x).length rate 8 12).map (rfreq (safeSignal x).length rate)).getD
      (pyArgmax ((bandMask (safeSignal x).length rate 8 12).map (ampBin (safeSignal x)))) 0

/-- Feature record returned by extract_features, one field per dict key the
    source writes. -/
structure FeatureVector where
  delta : ℝ
  theta : ℝ
  alpha : ℝ
  lo_alpha : ℝ
  hi_alpha : ℝ
  smr : ℝ
  beta : ℝ
  hibeta : ℝ
  total_amp_basic : ℝ
  hibeta_plus_beta : ℝ
  peak_alpha : ℚ

/-- Models extract_features: one band_amplitude call per entry of BANDS with
    the band edges of bands.py, the two derived sums, and the alpha peak. -/
noncomputable def extract_features (x : List ℝ) (rate : ℚ) : FeatureVector :=
  let d := band_amplitude x rate (3/2) (5/2)
  let t := band_amplitude x rate 3 7
  let a := band_amplitude x rate 8 12
  let la := band_amplitude x rate 8 9
  let ha := band_amplitude x rate 11 12
  let s := band_amplitude x rate 12 15
  let b := band_amplitude x rate 16 25
  let hb := band_amplitude x rate 28 40
  ⟨d, t, a, la, ha, s, b, hb, t + a + b, hb + b, peak_alpha_frequency x rate⟩

/-- Restatement of the band computation in the words of the specification: the
    bins form a Finset filter of the one-sided spectrum, the aggregate is the
    square root of the sum of their squared amplitudes, and an empty band
    yields 0. Used only to compare against the source embedding. -/
noncomputable def bandAmplitudeSpec (x : List ℝ) (rate lo hi : ℚ) : ℝ :=
  if ((Finset.range (nBins (safeSignal x).length)).filter
      (fun k => lo ≤ rfreq (safeSignal x).length rate k ∧
        rfreq (safeSignal x).length rate k ≤ hi)).Nonempty then
    Real.sqrt (∑ k ∈ (Finset.range (nBins (safeSignal x).length)).filter
      (fun k => lo ≤ rfreq (safeSignal x).length rate k ∧
        rfreq (safeSignal x).length rate k ≤ hi), ampBin (safeSignal x) k ^ 2)
  else 0

/-- Feature rows computed per active location from a finalized epoch-data map,
    modelling the features loop of _capture_epoch (runner.py lines 169-174):
    a location whose channel is absent from the epoch data is skipped. -/
noncomputable def channel_features (epochData : List (ℕ × List ℝ))
    (channels : List (String × Int)) (locations : List String) (rate : ℚ) :
    List (String × FeatureVector) :=
  locations.filterMap (fun loc =>
    match lookupStr channels loc with
    | none => none
    | some ch =>
      match epochData.lookup ch.toNat with
      | none => none
      | some sig => some (loc, extract_features sig rate))

/-- Streaming-path features of one epoch: every raw channel buffer is
    finalized by the streaming truncate/pad rule before extraction. -/
noncomputable def streamingFeatures (raw : List (ℕ × List ℝ)) (target : ℕ)
    (channels : List (String × Int)) (locations : List String) (rate : ℚ) :
    List (String × FeatureVector) :=
  channel_features (raw.map (fun p => (p.1, finalizeStreamBuffer p.2 target)))
    channels locations rate

/-- Block-path features of one epoch: every raw channel buffer is finalized by
    the read_epoch truncate/pad rule before extraction. -/
noncomputable def blockFeatures (raw : List (ℕ × List ℝ)) (target : ℕ)
    (channels : List (String × Int)) (locations : List String) (rate : ℚ) :
    List (String × FeatureVector) :=
  channel_features (raw.map (fun p => (p.1, readEpochFinalize p.2 target)))
    channels locations rate

/-! ## Helper lemmas -/

theorem finalizeStreamBuffer_length (sig : List ℝ) (t : ℕ) :
    (finalizeStreamBuffer sig t).length = t := by
  unfold finalizeStreamBuffer
  split_ifs with h1 h2
  · simp only [List.length_take]
    omega
  · simp only [List.length_append, List.length_replicate]
    omega
  · simp

theorem readEpochFinalize_length (sig : List ℝ) (n : ℕ) (hn : 0 < n) :
    (readEpochFinalize sig n).length = n := by
  unfold readEpochFinalize pySliceLastN
  split_ifs with h1 h2
  · omega
  · simp only [List.length_drop]
    omega
  · simp only [List.length_append, List.length_replicate]
    omega
  · simp

theorem finalizeStreamBuffer_exact (sig : List ℝ) (t : ℕ) (h : sig.length = t) :
    finalizeStreamBuffer sig t = sig := by
  unfold finalizeStreamBuffer
  rw [if_pos (le_of_eq h.symm), ← h, List.take_length]

theorem readEpochFinalize_exact (sig : List ℝ) (t : ℕ) (h : sig.length = t) :
    readEpochFinalize sig t = sig := by
  unfold readEpochFinalize pySliceLastN
  rw [if_pos (le_of_eq h.symm)]
  split_ifs with h2
  · rfl
  · rw [h, Nat.sub_self, List.drop_zero]

/-! ## Claim theorems -/

/-- C1: for every epoch with positive epoch seconds and positive sampling
    rate, the finalized per-channel sample buffer handed to the feature
    extractor has length exactly seconds * rate on both capture paths,
    regardless of how many samples the board delivered: an over-long buffer is
    truncated, a short non-empty buffer is edge-padded, and an empty buffer
    becomes an all-zero buffer of the expected length. -/
theorem epoch_buffer_lengths (seconds rate : ℕ) (hs : 0 < seconds) (hr : 0 < rate)
    (sig : List ℝ) (chunks : List (List ℝ)) :
    (assembleStreamChannel chunks (seconds * rate)).length = seconds * rate ∧
    (finalizeStreamBuffer sig (seconds * rate)).length = seconds * rate ∧
    (readEpochFinalize sig (seconds * rate)).length = seconds * rate ∧
    (seconds * rate ≤ sig.length →
      finalizeStreamBuffer sig (seconds * rate) = sig.take (seconds * rate)) ∧
    (0 < sig.length → sig.length < seconds * rate →
      finalizeStreamBuffer sig (seconds * rate) =
        sig ++ List.replicate (seconds * rate - sig.length) (sig.getLastD 0)) ∧
    finalizeStreamBuffer [] (seconds * rate) = List.replicate (seconds * rate) 0 := by
  have ht : 0 < seconds * rate := Nat.mul_pos hs hr
  refine ⟨finalizeStreamBuffer_length _ _, finalizeStreamBuffer_length _ _,
    readEpochFinalize_length _ _ ht, ?_, ?_, ?_⟩
  · intro h
    unfold finalizeStreamBuffer
    rw [if_pos h]
  · intro h1 h2
    unfold finalizeStreamBuffer
    rw [if_neg (by omega), if_pos h1]
  · unfold finalizeStreamBuffer
    simp

/-- Witness for C1 at a concrete epoch of 2 seconds sampled at 3 Hz. -/
theorem epoch_buffer_lengths_witness :
    (assembleStreamChannel [[(1:ℝ)], [2, 3]] (2 * 3)).length = 2 * 3 ∧
    (finalizeStreamBuffer [(5:ℝ)] (2 * 3)).length = 2 * 3 ∧
    (readEpochFinalize [(5:ℝ)] (2 * 3)).length = 2 * 3 ∧
    (2 * 3 ≤ [(5:ℝ)].length →
      finalizeStreamBuffer [(5:ℝ)] (2 * 3) = [(5:ℝ)].take (2 * 3)) ∧
    (0 < [(5:ℝ)].length → [(5:ℝ)].length < 2 * 3 →
      finalizeStreamBuffer [(5:ℝ)] (2 * 3) =
        [(5:ℝ)] ++ List.replicate (2 * 3 - [(5:ℝ)].length) ([(5:ℝ)].getLastD 0)) ∧
    finalizeStreamBuffer [] (2 * 3) = List.replicate (2 * 3) 0 :=
  epoch_buffer_lengths 2 3 (by norm_num) (by norm_num) [(5:ℝ)] [[(1:ℝ)], [2, 3]]

/-- C8 amended: when the board delivers identical raw per-channel waveforms of
    exactly the expected sample count seconds times rate, the streaming-capture
    path and the block-capture path finalize to the same buffers, so the
    per-epoch feature records have identical site keys and equal per-band
    values (exact equality in the real model, hence within any floating-point
    tolerance); without the exact-count condition the two paths truncate and
    pad at opposite ends and the features can diverge. -/
theorem streaming_block_features_agree (raw : List (ℕ × List ℝ)) (target : ℕ)
    (channels : List (String × Int)) (locations : List String) (rate : ℚ)
    (h : ∀ p ∈ raw, p.2.length = target) :
    streamingFeatures raw target channels locations rate =
      blockFeatures raw target channels locations rate ∧
    (streamingFeatures raw target channels locations rate).map Prod.fst =
      (blockFeatures raw target channels locations rate).map Prod.fst := by
  have hstream : raw.map (fun p => (p.1, finalizeStreamBuffer p.2 target)) = raw := by
    conv_rhs => rw [← List.map_id raw]
    apply List.map_congr_left
    intro p hp
    rw [finalizeStreamBuffer_exact p.2 target (h p hp)]
    rfl
  have hblock : raw.map (fun p => (p.1, readEpochFinalize p.2 target)) = raw := by
    conv_rhs => rw [← List.map_id raw]
    apply List.map_congr_left
    intro p hp
    rw [readEpochFinalize_exact p.2 target (h p hp)]
    rfl
  have hmain : streamingFeatures raw target channels locations rate =
      blockFeatures raw target channels locations rate := by
    unfold streamingFeatures blockFeatures
    rw [hstream, hblock]
  exact ⟨hmain, congrArg (List.map Prod.fst) hmain⟩

/-- Witness for C8 on one channel holding a 2-sample waveform. -/
theorem streaming_block_features_agree_witness :
    streamingFeatures [(1, [(0:ℝ), 1])] 2 DEFAULT_CHANNELS ["Cz"] 250 =
      blockFeatures [(1, [(0:ℝ), 1])] 2 DEFAULT_CHANNELS ["Cz"] 250 :=
  (streaming_block_features_agree [(1, [(0:ℝ), 1])] 2 DEFAULT_CHANNELS ["Cz"] 250
    (by intro p hp; rw [List.mem_singleton] at hp; rw [hp]; rfl)).1

theorem filter_range_map_sum (m : ℕ) (p : ℕ → Prop) [DecidablePred p] (f : ℕ → ℝ) :
    (((List.range m).filter (fun k => decide (p k))).map f).sum =
      ∑ k ∈ (Finset.range m).filter p, f k := by
  induction m with
  | zero => simp
  | succ n ih =>
    rw [List.range_succ, List.filter_append, List.map_append, List.sum_append, ih,
      Finset.range_succ, Finset.filter_insert]
    by_cases hp : p n
    · rw [if_pos hp, Finset.sum_insert (by simp)]
      simp [hp]
      ring
    · rw [if_neg hp]
      simp [hp]

theorem bandMask_eq_nil_iff (n : ℕ) (rate lo hi : ℚ) :
    bandMask n rate lo hi = [] ↔
      (Finset.range (nBins n)).filter
        (fun k => lo ≤ rfreq n rate k ∧ rfreq n rate k ≤ hi) = ∅ := by
  unfold bandMask
  rw [List.filter_eq_nil_iff, Finset.filter_eq_empty_iff]
  simp

theorem band_amplitude_eq_spec (x : List ℝ) (rate lo hi : ℚ) :
    band_amplitude x rate lo hi = bandAmplitudeSpec x rate lo hi := by
  unfold band_amplitude bandAmplitudeSpec
  by_cases h : bandMask (safeSignal x).length rate lo hi = []
  · rw [if_pos h, if_neg]
    rw [bandMask_eq_nil_iff] at h
    rw [h]
    exact Finset.not_nonempty_empty
  · have hne : ((Finset.range (nBins (safeSignal x).length)).filter
        (fun k => lo ≤ rfreq (safeSignal x).length rate k ∧
          rfreq (safeSignal x).length rate k ≤ hi)).Nonempty := by
      rw [Finset.nonempty_iff_ne_empty]
      intro hempty
      exact h ((bandMask_eq_nil_iff _ _ _ _).mpr hempty)
    rw [if_neg h, if_pos hne]
    congr 1

theorem band_amplitude_nonneg (x : List ℝ) (rate lo hi : ℚ) :
    0 ≤ band_amplitude x rate lo hi := by
  unfold band_amplitude
  split_ifs
  · exact le_refl 0
  · exact Real.sqrt_nonneg _

/-- C5: every named band amplitude of extract_features equals the aggregate
    the specification describes (square root of the sum of the squared
    amplitude-spectrum bins whose frequency lies in the closed band range,
    0 when no bin falls inside), the derived fields satisfy
    total_amp_basic = theta + alpha + beta and hibeta_plus_beta =
    hibeta + beta, and every band amplitude is non-negative. -/
theorem extract_features_correct (x : List ℝ) (rate : ℚ) (hr : 0 < rate) :
    ((extract_features x rate).delta = bandAmplitudeSpec x rate (3/2) (5/2) ∧
     (extract_features x rate).theta = bandAmplitudeSpec x rate 3 7 ∧
     (extract_features x rate).alpha = bandAmplitudeSpec x rate 8 12 ∧
     (extract_features x rate).lo_alpha = bandAmplitudeSpec x rate 8 9 ∧
     (extract_features x rate).hi_alpha = bandAmplitudeSpec x rate 11 12 ∧
     (extract_features x rate).smr = bandAmplitudeSpec x rate 12 15 ∧
     (extract_features x rate).beta = bandAmplitudeSpec x rate 16 25 ∧
     (extract_features x rate).hibeta = bandAmplitudeSpec x rate 28 40) ∧
    ((extract_features x rate).total_amp_basic =
       (extract_features x rate).theta + (extract_features x rate).alpha +
         (extract_features x rate).beta ∧
     (extract_features x rate).hibeta_plus_beta =
       (extract_features x rate).hibeta + (extract_features x rate).beta) ∧
    (0 ≤ (extract_features x rate).delta ∧
     0 ≤ (extract_features x rate).theta ∧
     0 ≤ (extract_features x rate).alpha ∧
     0 ≤ (extract_features x rate).lo_alpha ∧
     0 ≤ (extract_features x rate).hi_alpha ∧
     0 ≤ (extract_features x rate).smr ∧
     0 ≤ (extract_features x rate).beta ∧
     0 ≤ (extract_features x rate).hibeta) := by
  unfold extract_features
  refine ⟨⟨?_, ?_, ?_, ?_, ?_, ?_, ?_, ?_⟩, ⟨rfl, rfl⟩, ?_, ?_, ?_, ?_, ?_, ?_, ?_, ?_⟩ <;>
    first
      | exact band_amplitude_eq_spec x rate _ _
      | exact band_amplitude_nonneg x rate _ _

/-- Witness for C5 at a concrete 5-sample buffer and the default 250 Hz rate. -/
theorem extract_features_correct_witness :
    ((extract_features [(1:ℝ), 2, 3, 4, 5] 250).delta =
       bandAmplitudeSpec [(1:ℝ), 2, 3, 4, 5] 250 (3/2) (5/2) ∧
     (extract_features [(1:ℝ), 2, 3, 4, 5] 250).theta =
       bandAmplitudeSpec [(1:ℝ), 2, 3, 4, 5] 250 3 7 ∧
     (extract_features [(1:ℝ), 2, 3, 4, 5] 250).alpha =
       bandAmplitudeSpec [(1:ℝ), 2, 3, 4, 5] 250 8 12 ∧
     (extract_features [(1:ℝ), 2, 3, 4, 5] 250).lo_alpha =
       bandAmplitudeSpec [(1:ℝ), 2, 3, 4, 5] 250 8 9 ∧
     (extract_features [(1:ℝ), 2, 3, 4, 5] 250).hi_alpha =
       bandAmplitudeSpec [(1:ℝ), 2, 3, 4, 5] 250 11 12 ∧
     (extract_features [(1:ℝ), 2, 3, 4, 5] 250).smr =
       bandAmplitudeSpec [(1:ℝ), 2, 3, 4, 5] 250 12 15 ∧
     (extract_features [(1:ℝ), 2, 3, 4, 5] 250).beta =
       bandAmplitudeSpec [(1:ℝ), 2, 3, 4, 5] 250 16 25 ∧
     (extract_features [(1:ℝ), 2, 3, 4, 5] 250).hibeta =
       bandAmplitudeSpec [(1:ℝ), 2, 3, 4, 5] 250 28 40) ∧
    ((extract_features [(1:ℝ), 2, 3, 4, 5] 250).total_amp_basic =
       (extract_features [(1:ℝ), 2, 3, 4, 5] 250).theta +
         (extract_features [(1:ℝ), 2, 3, 4, 5] 250).alpha +
         (extract_features [(1:ℝ), 2, 3, 4, 5] 250).beta ∧
     (extract_features [(1:ℝ), 2, 3, 4, 5] 250).hibeta_plus_beta =
       (extract_features [(1:ℝ), 2, 3, 4, 5] 250).hibeta +
         (extract_features [(1:ℝ), 2, 3, 4, 5] 250).beta) ∧
    (0 ≤ (extract_features [(1:ℝ), 2, 3, 4, 5] 250).delta ∧
     0 ≤ (extract_features [(1:ℝ), 2, 3, 4, 5] 250).theta ∧
     0 ≤ (extract_features [(1:ℝ), 2, 3, 4, 5] 250).alpha ∧
     0 ≤ (extract_features [(1:ℝ), 2, 3, 4, 5] 250).lo_alpha ∧
     0 ≤ (extract_features [(1:ℝ), 2, 3, 4, 5] 250).hi_alpha ∧
     0 ≤ (extract_features [(1:ℝ), 2, 3, 4, 5] 250).smr ∧
     0 ≤ (extract_features [(1:ℝ), 2, 3, 4, 5] 250).beta ∧
     0 ≤ (extract_features [(1:ℝ), 2, 3, 4, 5] 250).hibeta) :=
  extract_features_correct [(1:ℝ), 2, 3, 4, 5] 250 (by norm_num)

/-- C6 counterexample: on the 3-sample all-zero buffer at sampling rate 40 the
    sanitized 4-point spectrum places its 10 Hz bin inside the closed alpha
    band, so peak_alpha_frequency returns 10, not 0; the unqualified statement
    that a 3-sample buffer always yields 0 is therefore false. -/
theorem peak_alpha_three_sample_counterexample :
    peak_alpha_frequency [(0:ℝ), 0, 0] 40 ≠ 0 := by
  have hs : safeSignal [(0:ℝ), 0, 0] = List.replicate 4 0 := by
    unfold safeSignal
    rw [if_pos (by simp)]
  have hlen : (safeSignal [(0:ℝ), 0, 0]).length = 4 := by
    rw [hs, List.length_replicate]
  have hmask : bandMask (safeSignal [(0:ℝ), 0, 0]).length 40 8 12 = [1] := by
    rw [hlen]
    simp only [bandMask, nBins]
    norm_num [List.range_succ, List.filter_append, List.filter, rfreq]
  unfold peak_alpha_frequency
  rw [hmask, if_neg (by simp), hlen]
  simp only [List.map_cons, List.map_nil, pyArgmax, pyArgmaxAux, List.getD]
  norm_num [rfreq]

/-- C6 amended: the extractor is total, a degenerate buffer (fewer than 4
    samples) is sanitized to a deterministic all-zero 4-sample buffer before
    analysis, and peak_alpha_frequency on a 3-sample buffer returns 0 at any
    sampling rate, such as the default 250 Hz, at which the sanitized 4-point
    spectrum has no bin inside the alpha band; at a rate that places a bin in
    the band it returns that frequency instead of 0, still without error. -/
theorem degenerate_input_sanitized :
    (∀ x : List ℝ, x.length < 4 → safeSignal x = List.replicate 4 0) ∧
    (∀ x : List ℝ, x.length = 3 → peak_alpha_frequency x 250 = 0) ∧
    peak_alpha_frequency [(0:ℝ), 0, 0] 40 = 10 := by
  have hsan : ∀ x : List ℝ, x.length < 4 → safeSignal x = List.replicate 4 0 := by
    intro x hx
    unfold safeSignal
    rw [if_pos hx]
  refine ⟨hsan, ?_, ?_⟩
  · intro x hx
    have hs : safeSignal x = List.replicate 4 0 := hsan x (by omega)
    have hlen : (safeSignal x).length = 4 := by rw [hs, List.length_replicate]
    have hmask : bandMask (safeSignal x).length 250 8 12 = [] := by
      rw [hlen]
      simp only [bandMask, nBins]
      norm_num [List.range_succ, List.filter_append, List.filter, rfreq]
    unfold peak_alpha_frequency
    rw [hmask, if_pos rfl]
  · have hs : safeSignal [(0:ℝ), 0, 0] = List.replicate 4 0 := hsan _ (by simp)
    have hlen : (safeSignal [(0:ℝ), 0, 0]).length = 4 := by
      rw [hs, List.length_replicate]
    have hmask : bandMask (safeSignal [(0:ℝ), 0, 0]).length 40 8 12 = [1] := by
      rw [hlen]
      simp only [bandMask, nBins]
      norm_num [List.range_succ, List.filter_append, List.filter, rfreq]
    unfold peak_alpha_frequency
    rw [hmask, if_neg (by simp), hlen]
    simp only [List.map_cons, List.map_nil, pyArgmax, pyArgmaxAux, List.getD]
    norm_num [rfreq]

/-- Witness for C6 amended at the concrete 3-sample buffer of ones. -/
theorem degenerate_input_sanitized_witness :
    safeSignal [(1:ℝ), 1, 1] = List.replicate 4 0 ∧
    peak_alpha_frequency [(1:ℝ), 1, 1] 250 = 0 :=
  ⟨degenerate_input_sanitized.1 [(1:ℝ), 1, 1] (by simp),
   degenerate_input_sanitized.2.1 [(1:ℝ), 1, 1] (by simp)⟩

/-- C3 counterexample: in a manual-policy repositioning reached with end of
    input already hit, the session trace contains the reposition_input_eof
    event and also a reposition_complete event, because run_session emits the
    completion event unconditionally after the wait returns; the claim that
    end of input never yields reposition_complete for that repositioning is
    therefore false. -/
theorem eof_still_emits_reposition_complete :
    Action.ev "reposition_input_eof" ∈ (run_session cfgManualPolicy [] noFault).1 ∧
    Action.ev "reposition_complete" ∈ (run_session cfgManualPolicy [] noFault).1 := by
  decide

/-- C3 amended: during a manual-policy repositioning wait a case-insensitive
    ready token, or a structured ready command whose next_location is absent,
    empty, or equal to the pending site, resumes the session; an unrecognized
    text line such as later is skipped and does not itself resume; end of
    input resumes immediately and emits reposition_input_eof; and after the
    end-of-input resume run_session still emits reposition_complete for that
    repositioning. -/
theorem manual_reposition_wait (loc : String) (rest : List Line) :
    (∀ s, pyStrip s ≠ "" → pyLower (pyStrip s) ∈ READY_TOKENS →
        waitLoop loc (Line.text s :: rest) = ([], rest, true)) ∧
    (∀ req, req = none ∨ req = some "" ∨ req = some loc →
        waitLoop loc (Line.jsonCmd "ready" req :: rest) = ([], rest, true)) ∧
    (∀ s, pyLower (pyStrip s) ∉ READY_TOKENS →
        waitLoop loc (Line.text s :: rest) = waitLoop loc rest) ∧
    waitLoop loc [] = ([Action.ev "reposition_input_eof"], [], false) ∧
    (manualRepositionPhase [] loc).1 =
      [Action.ev "reposition_start", Action.ev "reposition_waiting",
       Action.ev "reposition_input_eof", Action.ev "reposition_complete"] := by
  refine ⟨?_, ?_, ?_, rfl, rfl⟩
  · intro s h1 h2
    simp [waitLoop, h1, h2]
  · intro req hreq
    rcases hreq with rfl | rfl | rfl <;> simp [waitLoop]
  · intro s h2
    by_cases h1 : pyStrip s = ""
    · simp [waitLoop, h1]
    · simp [waitLoop, h1, h2]

/-- Witness for C3 amended at the pending site F4. -/
theorem manual_reposition_wait_witness :
    waitLoop "F4" [Line.text "READY"] = ([], [], true) ∧
    waitLoop "F4" [Line.text "later"] = waitLoop "F4" [] ∧
    waitLoop "F4" [Line.jsonCmd "ready" (some "F4")] = ([], [], true) :=
  ⟨(manual_reposition_wait "F4" []).1 "READY" (by decide) (by decide),
   (manual_reposition_wait "F4" []).2.2.1 "later" (by decide),
   (manual_reposition_wait "F4" []).2.1 (some "F4") (Or.inr (Or.inr rfl))⟩

/-- C2 counterexample: with a sequential site order missing F4 run_session
    does raise the configuration error, but board start has already been
    invoked when it is raised, so the error does not precede every board
    call as claimed. -/
theorem sequential_order_error_after_start :
    (run_session cfgBadOrder [] noFault).2 = Except.error Err.configurationError ∧
    Action.start ∈ (run_session cfgBadOrder [] noFault).1 := by
  decide

/-- C2 amended: the channel-map errors and the reposition-policy error are
    raised before any board call, with an empty action trace; the invalid
    sequential-order configuration error and the unrecognized acquisition-mode
    error are raised only inside the capture body, after board start has been
    invoked, and on those paths the guaranteed cleanup still invokes board
    stop before the error propagates. -/
theorem validation_split_around_start (cfg : Config) (stdin : List Line) (f : Fault) :
    (∀ e, validate_required_channels (resolve_channels cfg.channels) = some e →
        run_session cfg stdin f = ([], Except.error e)) ∧
    (validate_required_channels (resolve_channels cfg.channels) = none →
      repositionModeValid (pyLower cfg.repositionMode) = false →
        run_session cfg stdin f = ([], Except.error Err.unsupportedModeError)) ∧
    (validate_required_channels (resolve_channels cfg.channels) = none →
      repositionModeValid (pyLower cfg.repositionMode) = true →
      f.startFails = false →
      pyLower cfg.mode = "sequential" →
      sequential_order_valid (orderFromConfig cfg.sequentialOrder) = false →
        (run_session cfg stdin f).2 = Except.error Err.configurationError ∧
        Action.start ∈ (run_session cfg stdin f).1 ∧
        Action.stop ∈ (run_session cfg stdin f).1) ∧
    (validate_required_channels (resolve_channels cfg.channels) = none →
      repositionModeValid (pyLower cfg.repositionMode) = true →
      f.startFails = false →
      pyLower cfg.mode ≠ "simultaneous" →
      pyLower cfg.mode ≠ "sequential" →
        (run_session cfg stdin f).2 = Except.error Err.unsupportedModeError ∧
        Action.start ∈ (run_session cfg stdin f).1 ∧
        Action.stop ∈ (run_session cfg stdin f).1) := by
  refine ⟨?_, ?_, ?_, ?_⟩
  · intro e he
    simp [run_session, he]
  · intro h1 h2
    simp [run_session, h1, h2]
  · intro h1 h2 h3 h4 h5
    have hseq : pyLower cfg.mode ≠ "simultaneous" := by
      rw [h4]
      decide
    have hbody : runBody cfg stdin f =
        ([Action.start, Action.ev "board_ready"], Except.error Err.configurationError) := by
      simp [runBody, h3, h4, h5, hseq]
    simp [run_session, h1, h2, hbody]
  · intro h1 h2 h3 h4 h5
    have hbody : runBody cfg stdin f =
        ([Action.start, Action.ev "board_ready"], Except.error Err.unsupportedModeError) := by
      simp [runBody, h3, h4, h5]
    simp [run_session, h1, h2, hbody]

/-- Witness for C2 amended at the config whose sequential order misses F4. -/
theorem validation_split_around_start_witness :
    (run_session cfgBadOrder [] noFault).2 = Except.error Err.configurationError ∧
    Action.start ∈ (run_session cfgBadOrder [] noFault).1 ∧
    Action.stop ∈ (run_session cfgBadOrder [] noFault).1 :=
  (validation_split_around_start cfgBadOrder [] noFault).2.2.1 (by decide) (by decide) rfl
    (by decide) (by decide)

/-- C4: for every execution of run_session in which board start is invoked,
    board stop is invoked on the same trace, on every exit path including an
    exception raised anywhere in the capture loop, and the stop is recorded
    after the start and before the result or the exception is handed back to
    the caller. -/
theorem board_stop_on_every_exit (cfg : Config) (stdin : List Line) (f : Fault)
    (h : Action.start ∈ (run_session cfg stdin f).1) :
    ∃ l1 l2, (run_session cfg stdin f).1 = l1 ++ Action.stop :: l2 ∧ Action.start ∈ l1 := by
  unfold run_session at h ⊢
  cases hv : validate_required_channels (resolve_channels cfg.channels) with
  | some e =>
    rw [hv] at h
    simp at h
  | none =>
    rw [hv] at h
    by_cases hp : repositionModeValid (pyLower cfg.repositionMode) = false
    · simp [hp] at h
    · simp only [if_neg hp] at h ⊢
      refine ⟨Action.ev "session_start" :: (runBody cfg stdin f).1,
        Action.ev "board_stopped" ::
          (match (runBody cfg stdin f).2 with
            | Except.ok _ => [Action.ev "analysis_complete"]
            | Except.error _ => []), by simp, ?_⟩
      rcases hb : (runBody cfg stdin f).2 with e | caps <;>
        rw [hb] at h <;> simp at h <;> simp [h]

/-- Witness for C4 on a simultaneous session whose fourth epoch capture
    raises an exception. -/
theorem board_stop_on_every_exit_witness :
    ∃ l1 l2, (run_session cfgSimultaneous [] faultAtThree).1 = l1 ++ Action.stop :: l2 ∧
      Action.start ∈ l1 :=
  board_stop_on_every_exit cfgSimultaneous [] faultAtThree (by decide)

theorem captureSeq_noFault (name : String) (specs : List EpochSpec) (ctr : ℕ) :
    ∃ acts ctr2 caps,
      captureSeq name noFault specs ctr = (acts, ctr2, Except.ok caps) ∧
      caps.length = specs.length ∧ (∀ c ∈ caps, c.sequence = name) ∧
      Action.ev "sequence_start" ∉ acts := by
  induction specs generalizing ctr with
  | nil => exact ⟨[], ctr, [], rfl, rfl, by simp, by simp⟩
  | cons spec rest ih =>
    obtain ⟨acts, ctr2, caps, heq, hlen, hseq, hmem⟩ := ih (ctr + 1)
    have hce : capture_epoch name spec ctr noFault =
        ([Action.ev "epoch_start", Action.ev "epoch_complete"],
         Except.ok ⟨name, spec.index, spec.label, spec.seconds⟩) := by
      simp [capture_epoch, noFault]
    refine ⟨[Action.ev "epoch_start", Action.ev "epoch_complete"] ++ acts, ctr2,
      ⟨name, spec.index, spec.label, spec.seconds⟩ :: caps, ?_, by simp [hlen], ?_, ?_⟩
    · simp only [captureSeq, hce, heq]
    · intro c hc
      rcases List.mem_cons.mp hc with hc | hc
      · rw [hc]
      · exact hseq c hc
    · simp [hmem]

/-- C7: every simultaneous-mode session produces exactly one sequence, named
    MASTER: one sequence_start event is emitted in the whole session trace,
    every capture carries the sequence name MASTER, and the epoch count equals
    the Cz catalog length 10 plus one when the shared frontal-baseline extra is
    enabled and exactly the catalog length otherwise. -/
theorem simultaneous_master_sequence (cfg : Config) (stdin : List Line)
    (hmode : pyLower cfg.mode = "simultaneous")
    (hval : validate_required_channels (resolve_channels cfg.channels) = none)
    (hpol : repositionModeValid (pyLower cfg.repositionMode) = true) :
    ∃ caps, (run_session cfg stdin noFault).2 = Except.ok caps ∧
      (∀ c ∈ caps, c.sequence = "MASTER") ∧
      CZ_SEQUENCE.length = 10 ∧
      caps.length = CZ_SEQUENCE.length + (if cfg.includeFrontalBaseline then 1 else 0) ∧
      (∃ l1 l2, (run_session cfg stdin noFault).1 =
          l1 ++ Action.ev "sequence_start" :: l2 ∧
        Action.ev "sequence_start" ∉ l1 ∧ Action.ev "sequence_start" ∉ l2) := by
  obtain ⟨acts, ctr2, caps, heq, hlen, hseq, hmem⟩ :=
    captureSeq_noFault "MASTER"
      (apply_epoch_seconds CZ_SEQUENCE cfg.epochSeconds ++
        (if cfg.includeFrontalBaseline then
          apply_epoch_seconds SIMULTANEOUS_EXTRA cfg.epochSeconds else [])) 0
  have hbody : runBody cfg stdin noFault =
      ([Action.start, Action.ev "board_ready"] ++ [Action.ev "sequence_start"] ++ acts ++
        [Action.ev "sequence_complete"], Except.ok caps) := by
    have hsf : noFault.startFails = false := rfl
    simp [runBody, hmode, hsf, heq]
  refine ⟨caps, ?_, hseq, rfl, ?_, ?_⟩
  · simp [run_session, hval, hpol, hbody]
  · rw [hlen]
    by_cases hb : cfg.includeFrontalBaseline <;>
      simp [hb, apply_epoch_seconds, CZ_SEQUENCE, SIMULTANEOUS_EXTRA]
  · refine ⟨[Action.ev "session_start", Action.start, Action.ev "board_ready"],
      acts ++ [Action.ev "sequence_complete"] ++
        [Action.stop, Action.ev "board_stopped", Action.ev "analysis_complete"], ?_, ?_, ?_⟩
    · simp [run_session, hval, hpol, hbody]
    · simp
    · simp [hmem]

/-- Witness for C7 at the concrete simultaneous-mode config with defaults. -/
theorem simultaneous_master_sequence_witness :
    ∃ caps, (run_session cfgSimultaneous [] noFault).2 = Except.ok caps ∧
      (∀ c ∈ caps, c.sequence = "MASTER") ∧
      CZ_SEQUENCE.length = 10 ∧
      caps.length = CZ_SEQUENCE.length +
        (if cfgSimultaneous.includeFrontalBaseline then 1 else 0) ∧
      (∃ l1 l2, (run_session cfgSimultaneous [] noFault).1 =
          l1 ++ Action.ev "sequence_start" :: l2 ∧
        Action.ev "sequence_start" ∉ l1 ∧ Action.ev "sequence_start" ∉ l2) :=
  simultaneous_master_sequence cfgSimultaneous [] (by decide) (by decide) (by decide)

theorem dupFound_false_iff (l : List Int) : ∀ seen : List Int,
    dupFound seen l = false ↔ l.Nodup ∧ ∀ x ∈ l, x ∉ seen := by
  induction l with
  | nil =>
    intro seen
    simp [dupFound]
  | cons c rest ih =>
    intro seen
    by_cases h : c ∈ seen
    · simp [dupFound, h]
    · rw [show dupFound seen (c :: rest) = dupFound (c :: seen) rest by
        simp [dupFound, h], ih (c :: seen)]
      simp only [List.nodup_cons]
      constructor
      · rintro ⟨hnd, hall⟩
        refine ⟨⟨fun hc => hall c hc (List.mem_cons_self c seen), hnd⟩, ?_⟩
        intro x hx
        rcases List.mem_cons.mp hx with rfl | hx
        · exact h
        · exact fun hxs => hall x hx (List.mem_cons_of_mem c hxs)
      · rintro ⟨⟨hcr, hnd⟩, hall⟩
        refine ⟨hnd, fun x hx hxc => ?_⟩
        rcases List.mem_cons.mp hxc with rfl | hxs
        · exact hcr hx
        · exact hall x (List.mem_cons_of_mem c hx) hxs

/-- C9: a channel map that sends two required sites to one index, or a
    required site to a non-positive index, is rejected deterministically by
    run_session with the configuration error and an empty action trace, hence
    before board start; and every channel map that passes validation assigns
    every required site a strictly positive index with no index repeated. -/
theorem channel_map_validation (stdin : List Line) (f : Fault) :
    run_session cfgDupChannels stdin f = ([], Except.error Err.configurationError) ∧
    run_session cfgNonPositiveChannel stdin f = ([], Except.error Err.configurationError) ∧
    (∀ m, validate_required_channels m = none →
      (∀ loc ∈ REQUIRED_LOCATIONS, 0 < (lookupStr m loc).getD 0) ∧
      (REQUIRED_LOCATIONS.map (fun loc => (lookupStr m loc).getD 0)).Nodup) := by
  refine ⟨?_, ?_, ?_⟩
  · have hv : validate_required_channels (resolve_channels cfgDupChannels.channels) =
        some Err.configurationError := by decide
    simp [run_session, hv]
  · have hv : validate_required_channels (resolve_channels cfgNonPositiveChannel.channels) =
        some Err.configurationError := by decide
    simp [run_session, hv]
  · intro m hm
    unfold validate_required_channels at hm
    split_ifs at hm with h1 h2 h3
    push_neg at h2
    rw [Bool.not_eq_true] at h3
    constructor
    · intro loc hloc
      have hint := List.filter_eq_nil_iff.mp h2 loc hloc
      simp only [decide_eq_true_eq] at hint
      omega
    · exact ((dupFound_false_iff _ []).mp h3).1

/-- Witness for C9 at the built-in default channel map. -/
theorem channel_map_validation_witness :
    (∀ loc ∈ REQUIRED_LOCATIONS, 0 < (lookupStr DEFAULT_CHANNELS loc).getD 0) ∧
    (REQUIRED_LOCATIONS.map (fun loc => (lookupStr DEFAULT_CHANNELS loc).getD 0)).Nodup :=
  (channel_map_validation [] noFault).2.2 DEFAULT_CHANNELS (by decide)

theorem lookupStr_updateAssoc (m : List (String × Int)) (k q : String) (v : Int) :
    lookupStr (updateAssoc m k v) q = if k = q then some v else lookupStr m q := by
  induction m with
  | nil =>
    by_cases hq : k = q <;> simp [updateAssoc, lookupStr, hq]
  | cons kv rest ih =>
    obtain ⟨k0, v0⟩ := kv
    by_cases h : k0 = k
    · subst h
      by_cases hq : k0 = q <;> simp [updateAssoc, lookupStr, hq]
    · by_cases hq : k0 = q
      · subst hq
        have hkq : k ≠ k0 := fun he => h he.symm
        simp [updateAssoc, lookupStr, h, hkq]
      · simp [updateAssoc, lookupStr, h, hq, ih]

theorem lookupStr_resolve_not_overridden (ov : List (String × Int)) :
    ∀ m : List (String × Int), ∀ q : String, q ∉ ov.map Prod.fst →
      lookupStr (ov.foldl (fun acc kv => updateAssoc acc kv.1 kv.2) m) q = lookupStr m q := by
  induction ov with
  | nil =>
    intro m q _
    rfl
  | cons kv rest ih =>
    intro m q hq
    simp only [List.map_cons, List.mem_cons, not_or] at hq
    rw [List.foldl_cons, ih _ q hq.2, lookupStr_updateAssoc,
      if_neg (fun he => hq.1 he.symm)]

theorem lookupStr_resolve_isSome (ov : List (String × Int)) :
    ∀ m : List (String × Int), ∀ q : String, (lookupStr m q).isSome = true →
      (lookupStr (ov.foldl (fun acc kv => updateAssoc acc kv.1 kv.2) m) q).isSome = true := by
  induction ov with
  | nil =>
    intro m q h
    exact h
  | cons kv rest ih =>
    intro m q h
    rw [List.foldl_cons]
    apply ih
    rw [lookupStr_updateAssoc]
    split_ifs with he
    · rfl
    · exact h

/-- C10: the resolved channel map is the built-in defaults overridden by the
    channels entries of the config, so every required site is present for any
    configuration, the missing-required-channels rejection is unreachable
    through run_session, and a configuration that omits a required site is
    silently completed from the defaults rather than rejected. -/
theorem resolve_channels_defaults (ov : List (String × Int)) :
    (∀ loc ∈ REQUIRED_LOCATIONS, (lookupStr (resolve_channels ov) loc).isSome = true) ∧
    (REQUIRED_LOCATIONS.filter (fun loc => (lookupStr (resolve_channels ov) loc).isNone) = []) ∧
    (∀ loc ∈ REQUIRED_LOCATIONS, loc ∉ ov.map Prod.fst →
      lookupStr (resolve_channels ov) loc = lookupStr DEFAULT_CHANNELS loc) ∧
    validate_required_channels (resolve_channels []) = none := by
  have hsome : ∀ loc ∈ REQUIRED_LOCATIONS,
      (lookupStr (resolve_channels ov) loc).isSome = true := by
    intro loc hloc
    unfold resolve_channels
    apply lookupStr_resolve_isSome
    fin_cases hloc <;> decide
  refine ⟨hsome, ?_, ?_, by decide⟩
  · rw [List.filter_eq_nil_iff]
    intro loc hloc
    have h := hsome loc hloc
    cases hx : lookupStr (resolve_channels ov) loc with
    | none => rw [hx] at h; simp at h
    | some v => simp [hx]
  · intro loc _ hov
    exact lookupStr_resolve_not_overridden ov DEFAULT_CHANNELS loc hov

/-- Witness for C10: a config overriding only Fz still resolves Cz from the
    defaults. -/
theorem resolve_channels_defaults_witness :
    lookupStr (resolve_channels [("Fz", 9)]) "Cz" = lookupStr DEFAULT_CHANNELS "Cz" :=
  (resolve_channels_defaults [("Fz", 9)]).2.2.1 "Cz" (by decide) (by decide)

theorem hanning_four_zero : hanning 4 0 = 0 := by
  unfold hanning
  norm_num

theorem hanning_four_one : hanning 4 1 = 3 / 4 := by
  unfold hanning
  have h : 2 * Real.pi * (1:ℕ) / ((4:ℕ) - 1 : ℝ) = Real.pi - Real.pi / 3 := by
    push_cast
    ring
  rw [h, Real.cos_pi_sub, Real.cos_pi_div_three]
  norm_num

theorem hanning_four_two : hanning 4 2 = 3 / 4 := by
  unfold hanning
  have h : 2 * Real.pi * (2:ℕ) / ((4:ℕ) - 1 : ℝ) = 2 * Real.pi - (Real.pi - Real.pi / 3) := by
    push_cast
    ring
  rw [h, Real.cos_two_pi_sub, Real.cos_pi_sub, Real.cos_pi_div_three]
  norm_num

theorem hanning_four_three : hanning 4 3 = 0 := by
  unfold hanning
  have h : 2 * Real.pi * (3:ℕ) / ((4:ℕ) - 1 : ℝ) = 2 * Real.pi := by
    push_cast
    ring
  rw [h, Real.cos_two_pi]
  norm_num

theorem windowSum_four : windowSum 4 = 3 / 2 := by
  unfold windowSum
  rw [Finset.sum_range_succ, Finset.sum_range_succ, Finset.sum_range_succ,
    Finset.sum_range_succ, Finset.sum_range_zero,
    hanning_four_zero, hanning_four_one, hanning_four_two, hanning_four_three]
  norm_num

theorem exp_neg_pi_I : Complex.exp (-((Real.pi : ℂ) * Complex.I)) = -1 := by
  rw [Complex.exp_neg, Complex.exp_pi_mul_I]
  norm_num

theorem exp_neg_two_pi_I : Complex.exp (-(2 * (Real.pi : ℂ) * Complex.I)) = 1 := by
  rw [Complex.exp_neg, Complex.exp_two_pi_mul_I]
  norm_num

theorem exp_neg_three_pi_I : Complex.exp (-(3 * (Real.pi : ℂ) * Complex.I)) = -1 := by
  have h : -(3 * (Real.pi : ℂ) * Complex.I) =
      -((Real.pi : ℂ) * Complex.I) + -(2 * (Real.pi : ℂ) * Complex.I) := by
    ring
  rw [h, Complex.exp_add, exp_neg_pi_I, exp_neg_two_pi_I]
  norm_num

theorem rfft_stream_two : rfftCoeff [(0:ℝ), 1, 0, 0] 2 = ((-3/4 : ℝ) : ℂ) := by
  unfold rfftCoeff windowedSample signalMean
  rw [show [(0:ℝ), 1, 0, 0].length = 4 from rfl]
  rw [Finset.sum_range_succ, Finset.sum_range_succ, Finset.sum_range_succ,
    Finset.sum_range_succ, Finset.sum_range_zero,
    hanning_four_zero, hanning_four_one, hanning_four_two, hanning_four_three]
  have e0 : (-2 * (Real.pi:ℂ) * Complex.I * ((0:ℕ):ℂ) * ((2:ℕ):ℂ) / ((4:ℕ):ℂ)) = 0 := by
    push_cast
    ring
  have e1 : (-2 * (Real.pi:ℂ) * Complex.I * ((1:ℕ):ℂ) * ((2:ℕ):ℂ) / ((4:ℕ):ℂ)) =
      -((Real.pi : ℂ) * Complex.I) := by
    push_cast
    ring
  have e2 : (-2 * (Real.pi:ℂ) * Complex.I * ((2:ℕ):ℂ) * ((2:ℕ):ℂ) / ((4:ℕ):ℂ)) =
      -(2 * (Real.pi : ℂ) * Complex.I) := by
    push_cast
    ring
  have e3 : (-2 * (Real.pi:ℂ) * Complex.I * ((3:ℕ):ℂ) * ((2:ℕ):ℂ) / ((4:ℕ):ℂ)) =
      -(3 * (Real.pi : ℂ) * Complex.I) := by
    push_cast
    ring
  rw [e0, e1, e2, e3, Complex.exp_zero, exp_neg_pi_I, exp_neg_two_pi_I, exp_neg_three_pi_I]
  simp only [List.getD, List.get?]
  push_cast
  norm_num

theorem rfft_block_two : rfftCoeff [(1:ℝ), 0, 0, 0] 2 = 0 := by
  unfold rfftCoeff windowedSample signalMean
  rw [show [(1:ℝ), 0, 0, 0].length = 4 from rfl]
  rw [Finset.sum_range_succ, Finset.sum_range_succ, Finset.sum_range_succ,
    Finset.sum_range_succ, Finset.sum_range_zero,
    hanning_four_zero, hanning_four_one, hanning_four_two, hanning_four_three]
  have e0 : (-2 * (Real.pi:ℂ) * Complex.I * ((0:ℕ):ℂ) * ((2:ℕ):ℂ) / ((4:ℕ):ℂ)) = 0 := by
    push_cast
    ring
  have e1 : (-2 * (Real.pi:ℂ) * Complex.I * ((1:ℕ):ℂ) * ((2:ℕ):ℂ) / ((4:ℕ):ℂ)) =
      -((Real.pi : ℂ) * Complex.I) := by
    push_cast
    ring
  have e2 : (-2 * (Real.pi:ℂ) * Complex.I * ((2:ℕ):ℂ) * ((2:ℕ):ℂ) / ((4:ℕ):ℂ)) =
      -(2 * (Real.pi : ℂ) * Complex.I) := by
    push_cast
    ring
  have e3 : (-2 * (Real.pi:ℂ) * Complex.I * ((3:ℕ):ℂ) * ((2:ℕ):ℂ) / ((4:ℕ):ℂ)) =
      -(3 * (Real.pi : ℂ) * Complex.I) := by
    push_cast
    ring
  rw [e0, e1, e2, e3, Complex.exp_zero, exp_neg_pi_I, exp_neg_two_pi_I, exp_neg_three_pi_I]
  simp only [List.getD, List.get?]
  push_cast
  norm_num

theorem ampBin_stream_two : ampBin [(0:ℝ), 1, 0, 0] 2 = 1 := by
  unfold ampBin
  rw [rfft_stream_two]
  rw [show [(0:ℝ), 1, 0, 0].length = 4 from rfl, windowSum_four]
  rw [Complex.abs_ofReal, show ((-3 : ℝ)) / 4 = -(3/4) from by norm_num, abs_neg,
    abs_of_pos (by norm_num : (0:ℝ) < 3/4)]
  norm_num

theorem ampBin_block_two : ampBin [(1:ℝ), 0, 0, 0] 2 = 0 := by
  unfold ampBin
  rw [rfft_block_two]
  simp

theorem delta_mask_four : bandMask 4 4 (3/2) (5/2) = [2] := by
  simp only [bandMask, nBins]
  norm_num [List.range_succ, List.filter_append, List.filter, rfreq]

theorem delta_stream : band_amplitude [(0:ℝ), 1, 0, 0] 4 (3/2) (5/2) = 1 := by
  have hsafe : safeSignal [(0:ℝ), 1, 0, 0] = [(0:ℝ), 1, 0, 0] := by
    unfold safeSignal
    rw [if_neg (by simp)]
  unfold band_amplitude
  rw [hsafe, show [(0:ℝ), 1, 0, 0].length = 4 from rfl, delta_mask_four,
    if_neg (by simp)]
  rw [show ([2] : List ℕ).map (fun k => ampBin [(0:ℝ), 1, 0, 0] k ^ 2) =
    [ampBin [(0:ℝ), 1, 0, 0] 2 ^ 2] from rfl]
  rw [ampBin_stream_two]
  norm_num

theorem delta_block : band_amplitude [(1:ℝ), 0, 0, 0] 4 (3/2) (5/2) = 0 := by
  have hsafe : safeSignal [(1:ℝ), 0, 0, 0] = [(1:ℝ), 0, 0, 0] := by
    unfold safeSignal
    rw [if_neg (by simp)]
  unfold band_amplitude
  rw [hsafe, show [(1:ℝ), 0, 0, 0].length = 4 from rfl, delta_mask_four,
    if_neg (by simp)]
  rw [show ([2] : List ℕ).map (fun k => ampBin [(1:ℝ), 0, 0, 0] k ^ 2) =
    [ampBin [(1:ℝ), 0, 0, 0] 2 ^ 2] from rfl]
  rw [ampBin_block_two]
  norm_num

/-- C8 counterexample: when the board over-delivers, identical raw waveforms
    do not give equal features on the two capture paths: on the 5-sample raw
    waveform 0,1,0,0,0 with expected epoch count 4 the streaming path keeps
    the first four samples while the block path keeps the last four, and at
    sampling rate 4 the delta band amplitude is 1 on the streaming buffer and
    0 on the block buffer, an unbounded relative difference. -/
theorem streaming_block_divergence :
    streamingFeatures [(1, [(0:ℝ), 1, 0, 0, 0])] 4 DEFAULT_CHANNELS ["Cz"] 4 ≠
      blockFeatures [(1, [(0:ℝ), 1, 0, 0, 0])] 4 DEFAULT_CHANNELS ["Cz"] 4 := by
  have hstream : streamingFeatures [(1, [(0:ℝ), 1, 0, 0, 0])] 4 DEFAULT_CHANNELS ["Cz"] 4 =
      [("Cz", extract_features [(0:ℝ), 1, 0, 0] 4)] := by
    unfold streamingFeatures channel_features
    simp [DEFAULT_CHANNELS, lookupStr, finalizeStreamBuffer]
  have hblock : blockFeatures [(1, [(0:ℝ), 1, 0, 0, 0])] 4 DEFAULT_CHANNELS ["Cz"] 4 =
      [("Cz", extract_features [(1:ℝ), 0, 0, 0] 4)] := by
    unfold blockFeatures channel_features
    simp [DEFAULT_CHANNELS, lookupStr, readEpochFinalize, pySliceLastN]
  rw [hstream, hblock]
  intro hEq
  simp only [List.cons.injEq, Prod.mk.injEq, and_true, true_and] at hEq
  have hfv : extract_features [(0:ℝ), 1, 0, 0] 4 = extract_features [(1:ℝ), 0, 0, 0] 4 := hEq
  have h1 : (extract_features [(0:ℝ), 1, 0, 0] 4).delta = 1 := by
    unfold extract_features
    exact delta_stream
  have h2 : (extract_features [(1:ℝ), 0, 0, 0] 4).delta = 0 := by
    unfold extract_features
    exact delta_block
  rw [hfv, h2] at h1
  exact zero_ne_one h1

end ClinicalQ
